import Mathlib

/-!
Shallow embedding of the Jira export tool (`src/app.py`, `src/get_jira.py`).

The Python source is a small pipeline: a JQL query builder, a paginated
search fetcher, a per-issue worklog fetcher, a projector that enriches raw
issue records with humanized duration strings and worklog histories, and a
web export handler.  Network access is modelled by an oracle function from
request parameters to responses; the unbounded `while True` pagination
loops are modelled with an explicit fuel parameter, where running out of
fuel (`FetchResult.outOfFuel` for every fuel bound) witnesses
non-termination of the source loop.  Python integers arising here are
non-negative second counts and are modelled as `Nat`; Python `None` and
absent dictionary keys are both modelled as `Option.none`, matching the
semantics of `dict.get`.
-/

namespace JiraExport

/-- Embedding of `format_seconds_human` (`src/app.py` lines 9-20).
`divmod(s, k)` is `(s / k, s % k)` on non-negative integers; Python
truthiness `if days:` is `days ≠ 0`; the f-string `f"{days} day" + ("s" if
days>1 else "")` appends a plural "s" exactly when the count exceeds 1;
`", ".join(parts) if parts else "0 minutes"` is the final join. -/
def format_seconds_human : Option Nat → Option String
  | none => none
  | some seconds =>
    let s := seconds
    let days := s / 86400
    let rem := s % 86400
    let hours := rem / 3600
    let rem2 := rem % 3600
    let minutes := rem2 / 60
    let parts : List String :=
      (if days ≠ 0 then [toString days ++ " day" ++ (if days > 1 then "s" else "")] else [])
      ++ (if hours ≠ 0 then [toString hours ++ " hour" ++ (if hours > 1 then "s" else "")] else [])
      ++ (if minutes ≠ 0 then [toString minutes ++ " minute" ++ (if minutes > 1 then "s" else "")] else [])
    some (if parts = [] then "0 minutes" else String.intercalate ", " parts)

/-- The humanizer as the spec describes it (spec section 4.1): decompose a
positive second count into whole days, hours and minutes, discard leftover
seconds, keep the non-zero components in day-hour-minute order, format each
as "n unit" with a trailing "s" exactly when n exceeds 1, and join with
", "; an empty component list yields "0 minutes". -/
def humanizeSpec (n : Nat) : String :=
  let comps : List (Nat × String) :=
    [(n / 86400, "day"), (n % 86400 / 3600, "hour"), (n % 86400 % 3600 / 60, "minute")]
  let parts := (comps.filter (fun c => c.1 ≠ 0)).map
    (fun c => toString c.1 ++ " " ++ c.2 ++ (if c.1 > 1 then "s" else ""))
  if parts = [] then "0 minutes" else String.intercalate ", " parts

/-- Query parameters of one search request, as built in the `params` dict of
`fetch_all_issues` (`src/app.py` lines 28-33, `src/get_jira.py` lines
46-51).  `maxResults` and `startAt` are stringified integers in the source;
URL encoding is a bijective transport detail and they stay `Nat` here. -/
structure SearchParams where
  jql : String
  fields : String
  maxResults : Nat
  startAt : Nat
deriving DecidableEq

/-- Upstream response to one search request: HTTP status, raw body text, the
`issues` array (an absent key and `data.get("issues", [])` are modelled as
the empty list), and the optional `total` field of the JSON body. -/
structure SearchResponse (α : Type) where
  status : Nat
  body : String
  issues : List α
  total? : Option Nat
deriving DecidableEq

/-- Outcome of a fuel-bounded run of a pagination loop: normal return,
abort on an HTTP error status (`abort(resp.status_code, ...)` in
`src/app.py`, `raise_for_status` in `src/get_jira.py`), or fuel exhaustion
— the latter, holding for every fuel bound, witnesses that the source's
unbounded `while True` loop never exits. -/
inductive FetchResult (α : Type) where
  | ok : List α → FetchResult α
  | err : Nat → String → FetchResult α
  | outOfFuel : FetchResult α
deriving DecidableEq

/-- One state-passing turn of the `while True` loop of `fetch_all_issues`
(`src/app.py` lines 27-46): issue the request for the current `start_at`;
abort on status ≥ 400; extend the accumulated issues with the batch;
capture `total` on the first response only (`data.get("total",
len(batch))`); advance the cursor by the batch length; stop when
`start_at >= total`.  `reqs` logs every request issued, in order. -/
def fetchPages (up : SearchParams → SearchResponse α) (jql fields : String)
    (max_results : Nat) (acc : List α) (start_at : Nat) (total : Option Nat)
    (reqs : List SearchParams) : Nat → List SearchParams × FetchResult α
  | 0 => (reqs, .outOfFuel)
  | fuel + 1 =>
    let params : SearchParams := ⟨jql, fields, max_results, start_at⟩
    let resp := up params
    let reqs := reqs ++ [params]
    if 400 ≤ resp.status then (reqs, .err resp.status resp.body)
    else
      let batch := resp.issues
      let acc := acc ++ batch
      let total := total.getD (resp.total?.getD batch.length)
      let start_at := start_at + batch.length
      if total ≤ start_at then (reqs, .ok acc)
      else fetchPages up jql fields max_results acc start_at (some total) reqs fuel

/-- Embedding of `fetch_all_issues` (`src/app.py` lines 22-47,
`src/get_jira.py` lines 37-68): run the pagination loop from an empty
accumulator, cursor 0 and uncaptured total, also returning the list of
requests issued.  The base URL and credentials only address the upstream
and are absorbed into the oracle `up`. -/
def fetch_all_issues (up : SearchParams → SearchResponse α) (jql fields : String)
    (max_results : Nat) (fuel : Nat) : List SearchParams × FetchResult α :=
  fetchPages up jql fields max_results [] 0 none [] fuel

/-- A JSON object carrying a `name` key (Jira status, resolution and
component objects); the key may be absent or null. -/
structure NamedObj where
  name : Option String
deriving DecidableEq

/-- A JSON object carrying a `displayName` key (Jira assignee and worklog
author objects). -/
structure UserObj where
  displayName : Option String
deriving DecidableEq

/-- Shape of a raw worklog `comment` value: a plain JSON string, or any
other shape (e.g. a structured rich-text object), which the projector
drops to null (`isinstance(wl.get("comment"), str)` in `src/app.py`
line 114). -/
inductive CommentVal where
  | str : String → CommentVal
  | other : CommentVal
deriving DecidableEq

/-- Raw worklog record returned by the worklog endpoint (spec section 3):
author object, ISO timestamp, seconds spent, optional pre-formatted
duration string, and a comment of arbitrary shape. -/
structure RawWorklog where
  author : Option UserObj
  started : Option String
  timeSpentSeconds : Option Nat
  timeSpent : Option String
  comment : Option CommentVal
deriving DecidableEq

/-- The `fields` map of a raw issue record, with every key optional, as read
by `project_issues` (`src/app.py` lines 71-77, 81-88). -/
structure IssueFields where
  summary : Option String
  status : Option NamedObj
  resolution : Option NamedObj
  resolutiondate : Option String
  updated : Option String
  assignee : Option UserObj
  labels : Option (List String)
  components : Option (List NamedObj)
  timeoriginalestimate : Option Nat
  timeestimate : Option Nat
  timespent : Option Nat
  aggregatetimeoriginalestimate : Option Nat
  aggregatetimeestimate : Option Nat
  aggregatetimespent : Option Nat
deriving DecidableEq

/-- The all-absent `fields` map, the default taken by
`it.get("fields", {})` when the key is missing. -/
def emptyFields : IssueFields :=
  ⟨none, none, none, none, none, none, none, none, none, none, none, none, none, none⟩

/-- Raw issue record from the search endpoint: a `key` and an optional
`fields` map. -/
structure RawIssue where
  key : Option String
  fields : Option IssueFields
deriving DecidableEq

/-- The six {seconds, human} pairs of the enriched record's `time` block
(`src/app.py` lines 89-102). -/
structure TimeBlock where
  originalEstimateSeconds : Option Nat
  originalEstimateHuman : Option String
  remainingEstimateSeconds : Option Nat
  remainingEstimateHuman : Option String
  timeSpentSeconds : Option Nat
  timeSpentHuman : Option String
  aggregateOriginalEstimateSeconds : Option Nat
  aggregateOriginalEstimateHuman : Option String
  aggregateRemainingEstimateSeconds : Option Nat
  aggregateRemainingEstimateHuman : Option String
  aggregateTimeSpentSeconds : Option Nat
  aggregateTimeSpentHuman : Option String
deriving DecidableEq

/-- Enriched worklog entry (`src/app.py` lines 109-115). -/
structure EnrichedWorklog where
  author : Option String
  started : Option String
  timeSpentSeconds : Option Nat
  timeSpentHuman : Option String
  comment : Option String
deriving DecidableEq

/-- Enriched issue record (`src/app.py` lines 79-103): the worklogs key is
present exactly when worklog inclusion is enabled. -/
structure EnrichedIssue where
  key : Option String
  summary : Option String
  status : Option String
  resolution : Option String
  resolutiondate : Option String
  updated : Option String
  assignee : Option String
  labels : Option (List String)
  components : List (Option String)
  time : TimeBlock
  worklogs : Option (List EnrichedWorklog)
deriving DecidableEq

/-- Python `x or y` on an optional string: `None` and the empty string are
falsy, any other string is truthy. -/
def pyOrStr (x : Option String) (y : Option String) : Option String :=
  match x with
  | some s => if s = "" then y else some s
  | none => y

/-- The worklog dict comprehension body of `project_issues` (`src/app.py`
lines 109-115): author display name, started timestamp, raw seconds, the
upstream `timeSpent` string with the humanizer as fallback via Python
`or`, and the comment only when it is a plain string. -/
def project_worklog (wl : RawWorklog) : EnrichedWorklog :=
  { author := wl.author.bind UserObj.displayName
    started := wl.started
    timeSpentSeconds := wl.timeSpentSeconds
    timeSpentHuman := pyOrStr wl.timeSpent (format_seconds_human wl.timeSpentSeconds)
    comment := match wl.comment with
      | some (.str s) => some s
      | _ => none }

/-- The loop body of `project_issues` for one raw issue (`src/app.py` lines
70-117).  `(f.get("status") or {}).get("name")` is `Option.bind`;
`it.get("fields", {})` is `Option.getD` with `emptyFields`; the worklog
fetch for the issue's key is abstracted by the oracle `getWorklogs`, which
stands for a successful `fetch_worklogs` call (the failure path of that
call is modelled separately by `fetch_worklogs` below). -/
def project_issue (getWorklogs : Option String → List RawWorklog)
    (include_worklogs : Bool) (it : RawIssue) : EnrichedIssue :=
  let f := it.fields.getD emptyFields
  let original := f.timeoriginalestimate
  let remaining := f.timeestimate
  let spent := f.timespent
  let agg_orig := f.aggregatetimeoriginalestimate
  let agg_rem := f.aggregatetimeestimate
  let agg_sp := f.aggregatetimespent
  { key := it.key
    summary := f.summary
    status := f.status.bind NamedObj.name
    resolution := f.resolution.bind NamedObj.name
    resolutiondate := f.resolutiondate
    updated := f.updated
    assignee := f.assignee.bind UserObj.displayName
    labels := f.labels
    components := (f.components.getD []).map NamedObj.name
    time :=
      { originalEstimateSeconds := original
        originalEstimateHuman := format_seconds_human original
        remainingEstimateSeconds := remaining
        remainingEstimateHuman := format_seconds_human remaining
        timeSpentSeconds := spent
        timeSpentHuman := format_seconds_human spent
        aggregateOriginalEstimateSeconds := agg_orig
        aggregateOriginalEstimateHuman := format_seconds_human agg_orig
        aggregateRemainingEstimateSeconds := agg_rem
        aggregateRemainingEstimateHuman := format_seconds_human agg_rem
        aggregateTimeSpentSeconds := agg_sp
        aggregateTimeSpentHuman := format_seconds_human agg_sp }
    worklogs :=
      if include_worklogs then some ((getWorklogs it.key).map project_worklog)
      else none }

/-- Embedding of `project_issues` (`src/app.py` lines 68-118): the `for`
loop appending one enriched record per raw issue to `out`. -/
def project_issues (getWorklogs : Option String → List RawWorklog)
    (include_worklogs : Bool) (issues : List RawIssue) : List EnrichedIssue :=
  issues.foldl (fun out it => out ++ [project_issue getWorklogs include_worklogs it]) []

/-- Query parameters of one worklog request, as built in `fetch_worklogs`
(`src/app.py` line 55). -/
structure WorklogParams where
  startAt : Nat
  maxResults : Nat
deriving DecidableEq

/-- Upstream response to one worklog request: HTTP status, raw body text,
the `worklogs` array and the optional `total` field. -/
structure WorklogResponse where
  status : Nat
  body : String
  worklogs : List RawWorklog
  total? : Option Nat
deriving DecidableEq

/-- One turn of the `while True` loop of `fetch_worklogs` (`src/app.py`
lines 54-65): abort on status ≥ 400, wrapping the body with the issue key
(`f"[{issue_key}] worklog error: {resp.text}"`); otherwise extend the
accumulator, read `total` from the current response with default 0
(`data.get("total", 0)` — unlike the search loop this is re-read on every
page), advance the cursor by the batch length and stop when `sa >= total`. -/
def fetchWorklogPages (up : WorklogParams → WorklogResponse) (issue_key : String)
    (max_results : Nat) (acc : List RawWorklog) (sa : Nat)
    (reqs : List WorklogParams) : Nat → List WorklogParams × FetchResult RawWorklog
  | 0 => (reqs, .outOfFuel)
  | fuel + 1 =>
    let params : WorklogParams := ⟨sa, max_results⟩
    let resp := up params
    let reqs := reqs ++ [params]
    if 400 ≤ resp.status then
      (reqs, .err resp.status ("[" ++ issue_key ++ "] worklog error: " ++ resp.body))
    else
      let logs := resp.worklogs
      let total := resp.total?.getD 0
      let acc := acc ++ logs
      let sa := sa + logs.length
      if total ≤ sa then (reqs, .ok acc)
      else fetchWorklogPages up issue_key max_results acc sa reqs fuel

/-- Embedding of `fetch_worklogs` (`src/app.py` lines 49-66): run the
worklog pagination loop for one issue from the given starting cursor. -/
def fetch_worklogs (up : WorklogParams → WorklogResponse) (issue_key : String)
    (start_at max_results fuel : Nat) : List WorklogParams × FetchResult RawWorklog :=
  fetchWorklogPages up issue_key max_results [] start_at [] fuel

/-- The JQL string built by the web handler for `use_updated = False`
(`src/app.py` lines 143-147). -/
def jql_resolved (project : String) : String :=
  "project = " ++ project ++
    " AND resolution IS NOT EMPTY AND resolutiondate >= startOfMonth(-1)" ++
    " AND resolutiondate < startOfMonth() ORDER BY resolutiondate ASC"

/-- The JQL string built by the web handler for `use_updated = True`
(`src/app.py` lines 137-141). -/
def jql_updated (project : String) : String :=
  "project = " ++ project ++
    " AND statusCategory != Done AND updated >= startOfMonth(-1)" ++
    " AND updated < startOfMonth() ORDER BY updated ASC"

/-- The JQL string built by the CLI for `--use-updated`
(`src/get_jira.py` lines 105-110). -/
def jql_cli_updated (project : String) : String :=
  "project = " ++ project ++
    " AND status NOT IN (Open) AND updated >= startOfMonth(-1)" ++
    " AND updated < startOfMonth() ORDER BY updated ASC"

/-- The comma-joined field list of the web handler (`src/app.py` lines
149-155). -/
def export_field_list : String :=
  String.intercalate "," ["key", "summary", "status", "resolution", "resolutiondate",
    "updated", "assignee", "labels", "components",
    "timeoriginalestimate", "timeestimate", "timespent",
    "aggregatetimeoriginalestimate", "aggregatetimeestimate", "aggregatetimespent"]

/-- Python `str.strip()`: remove leading and trailing whitespace, modelled
directly on the character list. -/
def pyStrip (s : String) : String :=
  ⟨((s.data.dropWhile Char.isWhitespace).reverse.dropWhile Char.isWhitespace).reverse⟩

/-- The POST form of the `/export` endpoint: each field either absent from
the form or present with a string value (`request.form.get`). -/
structure ExportForm where
  baseUrl : Option String
  projectKey : Option String
  username : Option String
  password : Option String
  useUpdated : Option String
deriving DecidableEq

/-- Successful export payload: the enriched records that are JSON-serialized
into the response body, and the attachment filename. -/
structure ExportOutput where
  payload : List EnrichedIssue
  filename : String
deriving DecidableEq

/-- Outcome of the `/export` handler. -/
inductive ExportResult where
  | ok : ExportOutput → ExportResult
  | err : Nat → String → ExportResult
  | outOfFuel : ExportResult
deriving DecidableEq

/-- Embedding of the `/export` handler `export` (`src/app.py` lines
124-166; `export` is a reserved word in Lean).  Reads the form fields with
default "" and `.strip()` (Python strips whitespace; note the password is
not stripped), aborts with 400 before any request when any required field
is falsy (`not all([...])`), selects the JQL variant, fetches all pages and
projects with worklogs enabled.  The search requests issued are returned
alongside the outcome; worklog traffic is behind `getWorklogs`. -/
def export_endpoint (form : ExportForm) (up : SearchParams → SearchResponse RawIssue)
    (getWorklogs : Option String → List RawWorklog) (fuel : Nat) :
    List SearchParams × ExportResult :=
  let base_url := pyStrip (form.baseUrl.getD "")
  let project := pyStrip (form.projectKey.getD "")
  let username := pyStrip (form.username.getD "")
  let password := form.password.getD ""
  let use_updated := form.useUpdated == some "on"
  if base_url = "" ∨ project = "" ∨ username = "" ∨ password = "" then
    ([], .err 400 "Parametres manquants")
  else
    let jql := if use_updated then jql_updated project else jql_resolved project
    match fetch_all_issues up jql export_field_list 100 fuel with
    | (reqs, .ok issues) =>
        (reqs, .ok ⟨project_issues getWorklogs true issues,
          "jira_" ++ project ++ "_prev_month" ++
            (if use_updated then "_updated" else "") ++ ".json"⟩)
    | (reqs, .err s b) => (reqs, .err s b)
    | (reqs, .outOfFuel) => (reqs, .outOfFuel)

/-- Concrete mock upstream for evaluating the pagination theorems on a
250-record result served in pages of 100. -/
def c1MockUp : SearchParams → SearchResponse Nat := fun p =>
  if p.startAt = 0 then ⟨200, "", List.range 100, some 250⟩
  else if p.startAt = 100 then ⟨200, "", (List.range 100).map (fun i => 100 + i), none⟩
  else ⟨200, "", (List.range 50).map (fun i => 200 + i), none⟩

/-- Mock upstream that always answers HTTP 200 with an empty `issues` batch
and `total = 250`: a zero-length batch while the cursor is below the
reported total. -/
def emptyPageUp : SearchParams → SearchResponse Unit := fun _ => ⟨200, "", [], some 250⟩

/-- Mock upstream serving one full page at startAt 0 and a 403 error with
body "Forbidden" on the second page. -/
def c5MockUp : SearchParams → SearchResponse Nat := fun p =>
  if p.startAt = 0 then ⟨200, "", List.range 100, some 250⟩
  else ⟨403, "Forbidden", [], none⟩

/-- Mock worklog upstream that always answers HTTP 500 with body "boom". -/
def c5MockWup : WorklogParams → WorklogResponse := fun _ => ⟨500, "boom", [], none⟩

/-- Mock search upstream for the export endpoint that always answers an
empty exhausted listing. -/
def c8MockUp : SearchParams → SearchResponse RawIssue := fun _ => ⟨200, "", [], some 0⟩

/-- Worklog oracle returning no worklogs for any issue key. -/
def noWorklogs : Option String → List RawWorklog := fun _ => []

/-- Concrete raw issue whose only non-null time-tracking field is
`timespent = 59` seconds. -/
def c4It : RawIssue := ⟨some "K-1", some { emptyFields with timespent := some 59 }⟩

/-- Concrete raw worklog whose `timeSpent` is present but empty while
`timeSpentSeconds` is 60: Python `"" or x` takes the fallback. -/
def c9Wl : RawWorklog := ⟨none, none, some 60, some "", none⟩

/-- Concrete raw worklog with a pre-formatted duration string and a plain
string comment. -/
def c9Wl2 : RawWorklog :=
  ⟨some ⟨some "Ada"⟩, some "2025-09-01T10:00:00.000+0000", some 7200, some "2h",
    some (CommentVal.str "done")⟩

/-- The pairing invariant of spec section 3 for one {seconds, human} pair:
the human field is null exactly when the seconds field is null, and
otherwise holds a non-empty string. -/
def humanPairInv (sec : Option Nat) (hum : Option String) : Prop :=
  (hum = none ↔ sec = none) ∧ (sec ≠ none → ∃ s, hum = some s ∧ s ≠ "")

end JiraExport

namespace JiraExport

theorem space_day_append (x : String) : " day" ++ x = " " ++ ("day" ++ x) := by
  rw [← String.append_assoc]; rfl

theorem space_hour_append (x : String) : " hour" ++ x = " " ++ ("hour" ++ x) := by
  rw [← String.append_assoc]; rfl

theorem space_minute_append (x : String) : " minute" ++ x = " " ++ ("minute" ++ x) := by
  rw [← String.append_assoc]; rfl

theorem humanize_source_eq_spec (n : Nat) :
    format_seconds_human (some n) = some (humanizeSpec n) := by
  unfold format_seconds_human humanizeSpec
  by_cases hd : n / 86400 = 0 <;>
    by_cases hh : n % 86400 / 3600 = 0 <;>
      by_cases hm : n % 86400 % 3600 / 60 = 0 <;>
        simp [hd, hh, hm, List.filter, String.append_assoc,
          space_day_append, space_hour_append, space_minute_append]

end JiraExport

/-- C3: the duration humanizer maps null to null and 0 to "0 minutes"; for
every positive count of seconds it decomposes into whole days, hours and
minutes, discards leftover seconds, and joins the non-zero components in
day-hour-minute order with ", ", pluralizing with a trailing "s" exactly
when the count exceeds 1 (as captured by `JiraExport.humanizeSpec`); in
particular 90000 ↦ "1 day, 1 hour", 7200 ↦ "2 hours", 59 ↦ "0 minutes". -/
theorem JiraExport.c3_humanizer :
    format_seconds_human none = none ∧
    format_seconds_human (some 0) = some "0 minutes" ∧
    (∀ n : Nat, 0 < n → format_seconds_human (some n) = some (humanizeSpec n)) ∧
    format_seconds_human (some 90000) = some "1 day, 1 hour" ∧
    format_seconds_human (some 7200) = some "2 hours" ∧
    format_seconds_human (some 59) = some "0 minutes" := by
  refine ⟨rfl, by decide, fun n _ => humanize_source_eq_spec n, by decide, by decide, by decide⟩

/-- Witness for C3: the positive-count clause applied at 3661 seconds. -/
theorem JiraExport.c3_humanizer_witness :
    format_seconds_human (some 3661) = some (humanizeSpec 3661) :=
  c3_humanizer.2.2.1 3661 (by decide)

/-- C1: an upstream reporting total 250 in its first response and serving
pages of 100 records makes the fetcher issue exactly 3 search requests,
with startAt 0, 100 and 200, and return the 250 records concatenated in
page order; the totals reported by the second and third responses are left
arbitrary, so the captured total comes from the first response only. -/
theorem JiraExport.c1_pagination {α : Type} (up : SearchParams → SearchResponse α)
    (jql fields b0 b1 b2 : String) (t1 t2 : Option Nat)
    (p0 p1 p2 : List α) (fuel : Nat)
    (h0 : up ⟨jql, fields, 100, 0⟩ = ⟨200, b0, p0, some 250⟩)
    (h1 : up ⟨jql, fields, 100, 100⟩ = ⟨200, b1, p1, t1⟩)
    (h2 : up ⟨jql, fields, 100, 200⟩ = ⟨200, b2, p2, t2⟩)
    (l0 : p0.length = 100) (l1 : p1.length = 100) (l2 : p2.length = 50)
    (hf : 3 ≤ fuel) :
    fetch_all_issues up jql fields 100 fuel =
      ([⟨jql, fields, 100, 0⟩, ⟨jql, fields, 100, 100⟩, ⟨jql, fields, 100, 200⟩],
        FetchResult.ok (p0 ++ p1 ++ p2)) := by
  obtain ⟨k, rfl⟩ : ∃ k, fuel = k + 3 := ⟨fuel - 3, by omega⟩
  unfold fetch_all_issues
  rw [show k + 3 = (k + 2) + 1 from rfl]
  simp only [fetchPages]
  rw [h0]
  norm_num [l0]
  rw [h1]
  norm_num [l1]
  rw [h2]
  norm_num [l2, List.append_assoc]

/-- Witness for C1: the pagination theorem evaluated on the concrete mock
upstream `c1MockUp`. -/
theorem JiraExport.c1_pagination_witness :
    fetch_all_issues c1MockUp "jql" "flds" 100 3 =
      ([⟨"jql", "flds", 100, 0⟩, ⟨"jql", "flds", 100, 100⟩, ⟨"jql", "flds", 100, 200⟩],
        FetchResult.ok (List.range 100 ++ (List.range 100).map (fun i => 100 + i)
          ++ (List.range 50).map (fun i => 200 + i))) :=
  c1_pagination c1MockUp "jql" "flds" "" "" "" none none
    (List.range 100) ((List.range 100).map (fun i => 100 + i))
    ((List.range 50).map (fun i => 200 + i)) 3
    rfl rfl rfl (by simp) (by simp) (by simp) (by decide)

namespace JiraExport

theorem emptyPage_loop (jql fields : String) (mr : Nat) (acc : List Unit) :
    ∀ (fuel : Nat) (reqs : List SearchParams),
      fetchPages emptyPageUp jql fields mr acc 0 (some 250) reqs fuel =
        (reqs ++ List.replicate fuel ⟨jql, fields, mr, 0⟩, FetchResult.outOfFuel) := by
  intro fuel
  induction fuel with
  | zero => intro reqs; simp [fetchPages]
  | succ n ih =>
    intro reqs
    simp only [fetchPages, emptyPageUp]
    norm_num
    rw [ih]
    simp [List.replicate_succ, List.append_assoc]

end JiraExport

/-- C2 (violated by the code): against an upstream that always answers
HTTP 200 with a zero-length `issues` batch and `total = 250`, the fetch
loop never terminates — for every fuel bound it ends in `outOfFuel`,
having reissued the `startAt = 0` request once per unit of fuel.  The
spec requires treating a zero-length batch as exhaustion; the source's
only stop conditions are an error status and `start_at >= total`. -/
theorem JiraExport.c2_empty_batch_loops_forever (jql fields : String) (fuel : Nat) :
    fetch_all_issues emptyPageUp jql fields 100 fuel =
      (List.replicate fuel ⟨jql, fields, 100, 0⟩, FetchResult.outOfFuel) := by
  unfold fetch_all_issues
  cases fuel with
  | zero => simp [fetchPages]
  | succ n =>
    simp only [fetchPages, emptyPageUp]
    norm_num
    rw [emptyPage_loop jql fields 100 [] n [⟨jql, fields, 100, 0⟩]]
    simp [List.replicate_succ]

namespace JiraExport

theorem foldl_snoc_eq_append_map {α β : Type} (f : α → β) :
    ∀ (l : List α) (init : List β),
      l.foldl (fun out it => out ++ [f it]) init = init ++ l.map f
  | [], init => by simp
  | x :: xs, init => by
    simp only [List.foldl_cons, List.map_cons]
    rw [foldl_snoc_eq_append_map f xs (init ++ [f x])]
    simp

end JiraExport

/-- C7: the projector emits exactly one enriched record per raw issue, in
input order — it equals a `List.map` of the one-record projection, so no
records are added, dropped or reordered, and the lengths agree. -/
theorem JiraExport.c7_projector_one_to_one (getWorklogs : Option String → List RawWorklog)
    (include_worklogs : Bool) (issues : List RawIssue) :
    project_issues getWorklogs include_worklogs issues =
      issues.map (project_issue getWorklogs include_worklogs) ∧
    (project_issues getWorklogs include_worklogs issues).length = issues.length := by
  have h : project_issues getWorklogs include_worklogs issues =
      issues.map (project_issue getWorklogs include_worklogs) := by
    unfold project_issues
    rw [foldl_snoc_eq_append_map]
    simp
  exact ⟨h, by rw [h]; simp⟩

namespace JiraExport

theorem le_length_intercalate_go (s : String) :
    ∀ (l : List String) (acc : String),
      acc.length ≤ (String.intercalate.go acc s l).length := by
  intro l
  induction l with
  | nil => intro acc; simp [String.intercalate.go]
  | cons a as ih =>
    intro acc
    calc acc.length ≤ (acc ++ s ++ a).length := by simp; omega
    _ ≤ (String.intercalate.go (acc ++ s ++ a) s as).length := ih (acc ++ s ++ a)

theorem format_some_ne_empty (n : Nat) :
    ∃ s, format_seconds_human (some n) = some s ∧ s ≠ "" := by
  simp only [format_seconds_human]
  refine ⟨_, rfl, ?_⟩
  set parts : List String :=
    (if n / 86400 ≠ 0 then
        [toString (n / 86400) ++ " day" ++ (if n / 86400 > 1 then "s" else "")] else [])
    ++ (if n % 86400 / 3600 ≠ 0 then
        [toString (n % 86400 / 3600) ++ " hour" ++ (if n % 86400 / 3600 > 1 then "s" else "")]
      else [])
    ++ (if n % 86400 % 3600 / 60 ≠ 0 then
        [toString (n % 86400 % 3600 / 60) ++ " minute" ++
          (if n % 86400 % 3600 / 60 > 1 then "s" else "")] else []) with hparts
  have hmem : ∀ p ∈ parts, 0 < p.length := by
    intro p hp
    rw [hparts] at hp
    have hday : (" day").length = 4 := by decide
    have hhour : (" hour").length = 5 := by decide
    have hminute : (" minute").length = 7 := by decide
    simp only [List.mem_append] at hp
    rcases hp with (hp | hp) | hp <;> split at hp <;>
      simp only [List.mem_singleton, List.not_mem_nil] at hp
    all_goals subst hp
    all_goals simp only [String.length_append, hday, hhour, hminute]
    all_goals omega
  by_cases hnil : parts = []
  · rw [if_pos hnil]; decide
  · rw [if_neg hnil]
    obtain ⟨p, ps, hcons⟩ := List.exists_cons_of_ne_nil hnil
    have hp : 0 < p.length := hmem p (by rw [hcons]; simp)
    have hlen : p.length ≤ (String.intercalate ", " parts).length := by
      rw [hcons]
      simp only [String.intercalate]
      exact le_length_intercalate_go ", " ps p
    intro hcontra
    rw [hcontra] at hlen
    simp at hlen
    omega

theorem humanPair_format (sec : Option Nat) : humanPairInv sec (format_seconds_human sec) := by
  cases sec with
  | none => exact ⟨by simp [format_seconds_human], fun h => absurd rfl h⟩
  | some n =>
    obtain ⟨s, hs, hne⟩ := format_some_ne_empty n
    constructor
    · rw [hs]; simp
    · intro
      exact ⟨s, hs, hne⟩

end JiraExport

/-- C4: in every enriched record, each of the six Human time fields is null
exactly when its Seconds counterpart is null, and otherwise holds a
non-empty string; the raw time-tracking fields are nullable non-negative
integers by construction (`Option Nat`). -/
theorem JiraExport.c4_time_invariant (getWorklogs : Option String → List RawWorklog)
    (include_worklogs : Bool) (it : RawIssue) :
    humanPairInv (project_issue getWorklogs include_worklogs it).time.originalEstimateSeconds
      (project_issue getWorklogs include_worklogs it).time.originalEstimateHuman ∧
    humanPairInv (project_issue getWorklogs include_worklogs it).time.remainingEstimateSeconds
      (project_issue getWorklogs include_worklogs it).time.remainingEstimateHuman ∧
    humanPairInv (project_issue getWorklogs include_worklogs it).time.timeSpentSeconds
      (project_issue getWorklogs include_worklogs it).time.timeSpentHuman ∧
    humanPairInv (project_issue getWorklogs include_worklogs it).time.aggregateOriginalEstimateSeconds
      (project_issue getWorklogs include_worklogs it).time.aggregateOriginalEstimateHuman ∧
    humanPairInv (project_issue getWorklogs include_worklogs it).time.aggregateRemainingEstimateSeconds
      (project_issue getWorklogs include_worklogs it).time.aggregateRemainingEstimateHuman ∧
    humanPairInv (project_issue getWorklogs include_worklogs it).time.aggregateTimeSpentSeconds
      (project_issue getWorklogs include_worklogs it).time.aggregateTimeSpentHuman :=
  ⟨humanPair_format _, humanPair_format _, humanPair_format _,
    humanPair_format _, humanPair_format _, humanPair_format _⟩

/-- Witness for C4: on a record whose `timespent` is 59 seconds, the
enriched timeSpentHuman is a non-empty string. -/
theorem JiraExport.c4_time_invariant_witness :
    ∃ s, (project_issue noWorklogs true c4It).time.timeSpentHuman = some s ∧ s ≠ "" :=
  (c4_time_invariant noWorklogs true c4It).2.2.1.2 (by decide)

/-- C10: the projector is total on records with a missing `fields` map or
absent/null fields; a missing map behaves like the all-absent map, absent
or null scalar fields and the name of a null status, resolution or
assignee object project to null, and an absent or null components list
projects to the empty list. -/
theorem JiraExport.c10_null_safety (getWorklogs : Option String → List RawWorklog)
    (include_worklogs : Bool) (it : RawIssue) :
    (project_issues getWorklogs include_worklogs [it]).length = 1 ∧
    (it.fields = none →
      project_issue getWorklogs include_worklogs it =
        project_issue getWorklogs include_worklogs ⟨it.key, some emptyFields⟩) ∧
    ((it.fields.getD emptyFields).summary = none →
      (project_issue getWorklogs include_worklogs it).summary = none) ∧
    ((it.fields.getD emptyFields).resolutiondate = none →
      (project_issue getWorklogs include_worklogs it).resolutiondate = none) ∧
    ((it.fields.getD emptyFields).updated = none →
      (project_issue getWorklogs include_worklogs it).updated = none) ∧
    ((it.fields.getD emptyFields).labels = none →
      (project_issue getWorklogs include_worklogs it).labels = none) ∧
    ((it.fields.getD emptyFields).status = none →
      (project_issue getWorklogs include_worklogs it).status = none) ∧
    (∀ ob, (it.fields.getD emptyFields).status = some ob → ob.name = none →
      (project_issue getWorklogs include_worklogs it).status = none) ∧
    ((it.fields.getD emptyFields).resolution = none →
      (project_issue getWorklogs include_worklogs it).resolution = none) ∧
    (∀ ob, (it.fields.getD emptyFields).resolution = some ob → ob.name = none →
      (project_issue getWorklogs include_worklogs it).resolution = none) ∧
    ((it.fields.getD emptyFields).assignee = none →
      (project_issue getWorklogs include_worklogs it).assignee = none) ∧
    (∀ ob, (it.fields.getD emptyFields).assignee = some ob → ob.displayName = none →
      (project_issue getWorklogs include_worklogs it).assignee = none) ∧
    ((it.fields.getD emptyFields).components = none →
      (project_issue getWorklogs include_worklogs it).components = []) := by
  refine ⟨by simp [project_issues], ?_, ?_, ?_, ?_, ?_, ?_, ?_, ?_, ?_, ?_, ?_, ?_⟩
  · intro h
    simp [project_issue, h, emptyFields]
  · intro h; simp [project_issue, h]
  · intro h; simp [project_issue, h]
  · intro h; simp [project_issue, h]
  · intro h; simp [project_issue, h]
  · intro h; simp [project_issue, h]
  · intro ob h hn; simp [project_issue, h, hn]
  · intro h; simp [project_issue, h]
  · intro ob h hn; simp [project_issue, h, hn]
  · intro h; simp [project_issue, h]
  · intro ob h hn; simp [project_issue, h, hn]
  · intro h; simp [project_issue, h]

/-- Witness for C10: a record with no `fields` map at all projects to null
scalars and an empty components list. -/
theorem JiraExport.c10_null_safety_witness :
    (project_issue noWorklogs true ⟨some "K-2", none⟩).summary = none ∧
    (project_issue noWorklogs true ⟨some "K-2", none⟩).status = none ∧
    (project_issue noWorklogs true ⟨some "K-2", none⟩).components = [] :=
  ⟨(c10_null_safety noWorklogs true ⟨some "K-2", none⟩).2.2.1 rfl,
    (c10_null_safety noWorklogs true ⟨some "K-2", none⟩).2.2.2.2.2.2.1 rfl,
    (c10_null_safety noWorklogs true ⟨some "K-2", none⟩).2.2.2.2.2.2.2.2.2.2.2.2 rfl⟩

/-- C9 counterexample: a worklog whose upstream `timeSpent` string is
present but empty does not carry it through — Python `"" or x` is falsy,
so the projector substitutes the humanized seconds instead. -/
theorem JiraExport.c9_counterexample :
    c9Wl.timeSpent = some "" ∧ (project_worklog c9Wl).timeSpentHuman = some "1 minute" := by
  constructor <;> rfl

/-- C9 (amended): the enriched worklog's timeSpentHuman equals the
upstream's pre-formatted timeSpent string whenever that string is present
and non-empty, and equals the humanizer applied to timeSpentSeconds when
the string is absent or empty; the comment is carried through exactly when
it is a plain string and is null for any other shape; the raw seconds pass
through unchanged. -/
theorem JiraExport.c9_worklog_projection (wl : RawWorklog) :
    (∀ s, wl.timeSpent = some s → s ≠ "" → (project_worklog wl).timeSpentHuman = some s) ∧
    ((wl.timeSpent = none ∨ wl.timeSpent = some "") →
      (project_worklog wl).timeSpentHuman = format_seconds_human wl.timeSpentSeconds) ∧
    (∀ s, wl.comment = some (CommentVal.str s) → (project_worklog wl).comment = some s) ∧
    ((∀ s, wl.comment ≠ some (CommentVal.str s)) → (project_worklog wl).comment = none) ∧
    (project_worklog wl).timeSpentSeconds = wl.timeSpentSeconds ∧
    (project_worklog wl).author = wl.author.bind UserObj.displayName ∧
    (project_worklog wl).started = wl.started := by
  refine ⟨?_, ?_, ?_, ?_, rfl, rfl, rfl⟩
  · intro s hs hne
    simp [project_worklog, pyOrStr, hs, hne]
  · intro h
    rcases h with h | h <;> simp [project_worklog, pyOrStr, h]
  · intro s hs
    simp [project_worklog, hs]
  · intro h
    rcases hc : wl.comment with _ | cv
    · simp [project_worklog, hc]
    · cases cv with
      | str s => exact absurd hc (h s)
      | other => simp [project_worklog, hc]

/-- Witness for C9: on a worklog with a non-empty pre-formatted "2h" and a
plain string comment, both are carried through. -/
theorem JiraExport.c9_worklog_projection_witness :
    (project_worklog c9Wl2).timeSpentHuman = some "2h" ∧
    (project_worklog c9Wl2).comment = some "done" :=
  ⟨(c9_worklog_projection c9Wl2).1 "2h" rfl (by decide),
    (c9_worklog_projection c9Wl2).2.2.1 "done" rfl⟩

namespace JiraExport

theorem fetchPages_first_error {α : Type} (up : SearchParams → SearchResponse α)
    (jql fields : String) (mr : Nat) :
    ∀ (fuel : Nat) (acc : List α) (sa : Nat) (t : Option Nat)
      (reqs0 reqs : List SearchParams) (res : FetchResult α),
      fetchPages up jql fields mr acc sa t reqs0 fuel = (reqs, res) →
      ∃ new, reqs = reqs0 ++ new ∧
        (((∀ r ∈ new, (up r).status < 400) ∧ ∀ s b, res ≠ FetchResult.err s b) ∨
          ∃ pre r, new = pre ++ [r] ∧ (∀ r' ∈ pre, (up r').status < 400) ∧
            400 ≤ (up r).status ∧ res = FetchResult.err (up r).status (up r).body) := by
  intro fuel
  induction fuel with
  | zero =>
    intro acc sa t reqs0 reqs res hrun
    simp only [fetchPages] at hrun
    injection hrun with h1 h2
    subst h1; subst h2
    exact ⟨[], by simp, Or.inl ⟨by simp, fun s b h => FetchResult.noConfusion h⟩⟩
  | succ n ih =>
    intro acc sa t reqs0 reqs res hrun
    simp only [fetchPages] at hrun
    split at hrun
    next hs =>
      injection hrun with h1 h2
      subst h1; subst h2
      exact ⟨[⟨jql, fields, mr, sa⟩], rfl,
        Or.inr ⟨[], ⟨jql, fields, mr, sa⟩, rfl, by simp, hs, rfl⟩⟩
    next hs =>
      split at hrun
      next hstop =>
        injection hrun with h1 h2
        subst h1; subst h2
        refine ⟨[⟨jql, fields, mr, sa⟩], rfl, Or.inl ⟨?_, ?_⟩⟩
        · intro r hr
          rw [List.mem_singleton] at hr
          subst hr
          omega
        · exact fun s b h => FetchResult.noConfusion h
      next hstop =>
        obtain ⟨new, hnew, hAB⟩ := ih _ _ _ _ _ _ hrun
        refine ⟨⟨jql, fields, mr, sa⟩ :: new, by rw [hnew]; simp, ?_⟩
        rcases hAB with ⟨hok, hne⟩ | ⟨pre, r, hsplit, hpre, hr, hres⟩
        · refine Or.inl ⟨?_, hne⟩
          intro r hr
          rcases List.mem_cons.mp hr with rfl | hr
          · omega
          · exact hok r hr
        · refine Or.inr ⟨⟨jql, fields, mr, sa⟩ :: pre, r, by rw [hsplit]; simp, ?_, hr, hres⟩
          intro r' hr'
          rcases List.mem_cons.mp hr' with rfl | hr'
          · omega
          · exact hpre r' hr'

theorem fetchWorklogPages_first_error (wup : WorklogParams → WorklogResponse)
    (key : String) (mr : Nat) :
    ∀ (fuel : Nat) (acc : List RawWorklog) (sa : Nat)
      (reqs0 reqs : List WorklogParams) (res : FetchResult RawWorklog),
      fetchWorklogPages wup key mr acc sa reqs0 fuel = (reqs, res) →
      ∃ new, reqs = reqs0 ++ new ∧
        (((∀ r ∈ new, (wup r).status < 400) ∧ ∀ s b, res ≠ FetchResult.err s b) ∨
          ∃ pre r, new = pre ++ [r] ∧ (∀ r' ∈ pre, (wup r').status < 400) ∧
            400 ≤ (wup r).status ∧
            res = FetchResult.err (wup r).status
              ("[" ++ key ++ "] worklog error: " ++ (wup r).body)) := by
  intro fuel
  induction fuel with
  | zero =>
    intro acc sa reqs0 reqs res hrun
    simp only [fetchWorklogPages] at hrun
    injection hrun with h1 h2
    subst h1; subst h2
    exact ⟨[], by simp, Or.inl ⟨by simp, fun s b h => FetchResult.noConfusion h⟩⟩
  | succ n ih =>
    intro acc sa reqs0 reqs res hrun
    simp only [fetchWorklogPages] at hrun
    split at hrun
    next hs =>
      injection hrun with h1 h2
      subst h1; subst h2
      exact ⟨[⟨sa, mr⟩], rfl, Or.inr ⟨[], ⟨sa, mr⟩, rfl, by simp, hs, rfl⟩⟩
    next hs =>
      split at hrun
      next hstop =>
        injection hrun with h1 h2
        subst h1; subst h2
        refine ⟨[⟨sa, mr⟩], rfl, Or.inl ⟨?_, ?_⟩⟩
        · intro r hr
          rw [List.mem_singleton] at hr
          subst hr
          omega
        · exact fun s b h => FetchResult.noConfusion h
      next hstop =>
        obtain ⟨new, hnew, hAB⟩ := ih _ _ _ _ _ hrun
        refine ⟨⟨sa, mr⟩ :: new, by rw [hnew]; simp, ?_⟩
        rcases hAB with ⟨hok, hne⟩ | ⟨pre, r, hsplit, hpre, hr, hres⟩
        · refine Or.inl ⟨?_, hne⟩
          intro r hr
          rcases List.mem_cons.mp hr with rfl | hr
          · omega
          · exact hok r hr
        · refine Or.inr ⟨⟨sa, mr⟩ :: pre, r, by rw [hsplit]; simp, ?_, hr, hres⟩
          intro r' hr'
          rcases List.mem_cons.mp hr' with rfl | hr'
          · omega
          · exact hpre r' hr'

end JiraExport

/-- C5: in every fetch run — any upstream, page size, starting state and
fuel — if some issued search request is answered with an HTTP status of
400 or above, the fetch aborts at exactly that response: the erroring
request is the last one issued (no retry, no later pages), the result is
the error carrying that response's status and body (no partial record
list is returned), and every earlier request in the run had succeeded;
likewise any work-log request answered with an error status ends its run
at that response with the status and the body wrapped in the issue key
(`abort` in `src/app.py`, the raised `HTTPError` in `src/get_jira.py`). -/
theorem JiraExport.c5_http_error_aborts :
    (∀ (α : Type) (up : SearchParams → SearchResponse α) (jql fields : String)
        (max_results fuel : Nat) (reqs : List SearchParams) (res : FetchResult α)
        (r : SearchParams),
      fetch_all_issues up jql fields max_results fuel = (reqs, res) →
      r ∈ reqs → 400 ≤ (up r).status →
      reqs.getLast? = some r ∧
        res = FetchResult.err (up r).status (up r).body ∧
        ∀ r' ∈ reqs.dropLast, (up r').status < 400) ∧
    (∀ (wup : WorklogParams → WorklogResponse) (key : String)
        (start_at max_results fuel : Nat) (reqs : List WorklogParams)
        (res : FetchResult RawWorklog) (r : WorklogParams),
      fetch_worklogs wup key start_at max_results fuel = (reqs, res) →
      r ∈ reqs → 400 ≤ (wup r).status →
      reqs.getLast? = some r ∧
        res = FetchResult.err (wup r).status
          ("[" ++ key ++ "] worklog error: " ++ (wup r).body) ∧
        ∀ r' ∈ reqs.dropLast, (wup r').status < 400) := by
  constructor
  · intro α up jql fields mr fuel reqs res r hrun hmem herr
    unfold fetch_all_issues at hrun
    obtain ⟨new, hnew, hAB⟩ := fetchPages_first_error up jql fields mr fuel [] 0 none [] reqs res hrun
    rw [List.nil_append] at hnew
    subst hnew
    rcases hAB with ⟨hok, _⟩ | ⟨pre, rB, hsplit, hpre, hrB, hres⟩
    · exact absurd herr (Nat.not_le.mpr (hok r hmem))
    · subst hsplit
      rcases List.mem_append.mp hmem with hr | hr
      · exact absurd herr (Nat.not_le.mpr (hpre r hr))
      · rw [List.mem_singleton] at hr
        subst hr
        refine ⟨List.getLast?_concat pre, hres, ?_⟩
        rw [List.dropLast_concat]
        exact hpre
  · intro wup key sa mr fuel reqs res r hrun hmem herr
    unfold fetch_worklogs at hrun
    obtain ⟨new, hnew, hAB⟩ := fetchWorklogPages_first_error wup key mr fuel [] sa [] reqs res hrun
    rw [List.nil_append] at hnew
    subst hnew
    rcases hAB with ⟨hok, _⟩ | ⟨pre, rB, hsplit, hpre, hrB, hres⟩
    · exact absurd herr (Nat.not_le.mpr (hok r hmem))
    · subst hsplit
      rcases List.mem_append.mp hmem with hr | hr
      · exact absurd herr (Nat.not_le.mpr (hpre r hr))
      · rw [List.mem_singleton] at hr
        subst hr
        refine ⟨List.getLast?_concat pre, hres, ?_⟩
        rw [List.dropLast_concat]
        exact hpre

/-- Witness for C5: both clauses evaluated on concrete runs — the
403-on-page-2 search mock and the 500-answering worklog mock. -/
theorem JiraExport.c5_http_error_aborts_witness :
    ([(⟨"jql", "flds", 100, 0⟩ : SearchParams), ⟨"jql", "flds", 100, 100⟩].getLast? =
        some ⟨"jql", "flds", 100, 100⟩ ∧
      (FetchResult.err 403 "Forbidden" : FetchResult Nat) =
        FetchResult.err (c5MockUp ⟨"jql", "flds", 100, 100⟩).status
          (c5MockUp ⟨"jql", "flds", 100, 100⟩).body ∧
      ∀ r' ∈ [(⟨"jql", "flds", 100, 0⟩ : SearchParams),
          ⟨"jql", "flds", 100, 100⟩].dropLast, (c5MockUp r').status < 400) ∧
    ([(⟨0, 100⟩ : WorklogParams)].getLast? = some ⟨0, 100⟩ ∧
      (FetchResult.err 500 "[K-1] worklog error: boom" : FetchResult RawWorklog) =
        FetchResult.err (c5MockWup ⟨0, 100⟩).status
          ("[" ++ "K-1" ++ "] worklog error: " ++ (c5MockWup ⟨0, 100⟩).body) ∧
      ∀ r' ∈ [(⟨0, 100⟩ : WorklogParams)].dropLast, (c5MockWup r').status < 400) :=
  ⟨c5_http_error_aborts.1 Nat c5MockUp "jql" "flds" 100 2
      [⟨"jql", "flds", 100, 0⟩, ⟨"jql", "flds", 100, 100⟩]
      (FetchResult.err 403 "Forbidden") ⟨"jql", "flds", 100, 100⟩
      (by decide) (by decide) (by decide),
    c5_http_error_aborts.2 c5MockWup "K-1" 0 100 1
      [⟨0, 100⟩] (FetchResult.err 500 "[K-1] worklog error: boom") ⟨0, 100⟩
      (by decide) (by decide) (by decide)⟩

/-- C8: when any of baseUrl, projectKey, username or password is missing
from the form or empty, the export endpoint answers 400 "Parametres
manquants" and issues no search request (the request log is empty), for
every upstream, worklog oracle and fuel. -/
theorem JiraExport.c8_missing_params (form : ExportForm)
    (up : SearchParams → SearchResponse RawIssue)
    (getWorklogs : Option String → List RawWorklog) (fuel : Nat)
    (h : form.baseUrl = none ∨ form.baseUrl = some "" ∨
      form.projectKey = none ∨ form.projectKey = some "" ∨
      form.username = none ∨ form.username = some "" ∨
      form.password = none ∨ form.password = some "") :
    export_endpoint form up getWorklogs fuel =
      ([], ExportResult.err 400 "Parametres manquants") := by
  have hstrip : pyStrip "" = "" := rfl
  rcases h with h | h | h | h | h | h | h | h <;>
    simp [export_endpoint, h, hstrip]

/-- Witness for C8: a form with no baseUrl is rejected with 400 and no
request issued. -/
theorem JiraExport.c8_missing_params_witness :
    export_endpoint ⟨none, some "PROJ", some "user", some "pw", none⟩ c8MockUp noWorklogs 5 =
      ([], ExportResult.err 400 "Parametres manquants") :=
  c8_missing_params ⟨none, some "PROJ", some "user", some "pw", none⟩ c8MockUp noWorklogs 5
    (Or.inl rfl)

namespace JiraExport

theorem infix_of_pre {α : Type} {l₁ l₂ : List α} (h : l₁ <+: l₂) : l₁ <:+: l₂ := by
  obtain ⟨t, ht⟩ := h
  exact ⟨[], t, by simpa using ht⟩

theorem infix_of_suf {α : Type} {l₁ l₂ : List α} (h : l₁ <:+ l₂) : l₁ <:+: l₂ := by
  obtain ⟨s, hs⟩ := h
  exact ⟨s, [], by simpa using hs⟩

theorem infix_trans {α : Type} {l₁ l₂ l₃ : List α} (h1 : l₁ <:+: l₂) (h2 : l₂ <:+: l₃) :
    l₁ <:+: l₃ := by
  obtain ⟨s, t, hst⟩ := h1
  obtain ⟨u, v, huv⟩ := h2
  exact ⟨u ++ s, t ++ v, by rw [← huv, ← hst]; simp [List.append_assoc]⟩

theorem take_pre {α : Type} (n : Nat) (l : List α) : l.take n <+: l :=
  ⟨l.drop n, List.take_append_drop n l⟩

theorem drop_suf {α : Type} (n : Nat) (l : List α) : l.drop n <:+ l :=
  ⟨l.take n, List.take_append_drop n l⟩

theorem infix_append_cases {α : Type} {W X Y : List α} (h : W <:+: X ++ Y) :
    W <:+: X ∨ W <:+: Y ∨
      ∃ k, 0 < k ∧ k < W.length ∧ W.take k <:+ X ∧ W.drop k <+: Y := by
  obtain ⟨s, t, hst⟩ := h
  have hW : W <+: (X ++ Y).drop s.length := by
    rw [← hst, List.append_assoc, List.drop_left]
    exact ⟨t, rfl⟩
  by_cases hi : X.length ≤ s.length
  · right; left
    have hdrop : (X ++ Y).drop s.length = Y.drop (s.length - X.length) := by
      rw [List.drop_append_eq_append_drop]
      simp [List.drop_eq_nil_iff.mpr hi]
    rw [hdrop] at hW
    exact infix_trans (infix_of_pre hW) (infix_of_suf (drop_suf _ _))
  · push_neg at hi
    have hdrop : (X ++ Y).drop s.length = X.drop s.length ++ Y :=
      List.drop_append_of_le_length (le_of_lt hi)
    rw [hdrop] at hW
    obtain ⟨r, hr⟩ := hW
    by_cases hl : W.length ≤ (X.drop s.length).length
    · left
      have h2 : (W ++ r).take W.length = W := List.take_left W r
      rw [hr, List.take_append_of_le_length hl] at h2
      exact infix_trans (infix_of_pre (h2 ▸ take_pre W.length (X.drop s.length)))
        (infix_of_suf (drop_suf _ _))
    · push_neg at hl
      refine Or.inr (Or.inr ⟨(X.drop s.length).length, ?_, hl, ?_, ?_⟩)
      · simp only [List.length_drop]; omega
      · have h2 : (W ++ r).take (X.drop s.length).length = W.take (X.drop s.length).length :=
          List.take_append_of_le_length (le_of_lt hl)
        have h3 : (X.drop s.length ++ Y).take (X.drop s.length).length = X.drop s.length :=
          List.take_left _ _
        rw [hr, h3] at h2
        exact h2 ▸ drop_suf s.length X
      · have h2 : (W ++ r).drop (X.drop s.length).length =
            W.drop (X.drop s.length).length ++ r :=
          List.drop_append_of_le_length (le_of_lt hl)
        have h3 : (X.drop s.length ++ Y).drop (X.drop s.length).length = Y :=
          List.drop_left _ _
        rw [hr, h3] at h2
        exact ⟨r, h2.symm⟩

theorem not_infix_append3 {α : Type} {W A P B : List α}
    (hA : ¬ W <:+: A) (hB : ¬ W <:+: B) (hP : ¬ W <:+: P)
    (hTake : ∀ k < W.length, 0 < k → ¬ W.take k <:+ A)
    (hDrop : ∀ k < W.length, 0 < k → ¬ W.drop k <+: B) :
    ¬ W <:+: A ++ (P ++ B) := by
  intro h
  rcases infix_append_cases h with h | h | ⟨k, hk0, hkW, hkA, _⟩
  · exact hA h
  · rcases infix_append_cases h with h | h | ⟨k, hk0, hkW, _, hkB⟩
    · exact hP h
    · exact hB h
    · exact hDrop k hkW hk0 hkB
  · exact hTake k hkW hk0 hkA

theorem infix_of_tail1 {α : Type} {pat S1 : List α} (A P S2 : List α) (h : pat <:+: S1) :
    pat <:+: A ++ (P ++ (S1 ++ S2)) :=
  infix_trans h (infix_trans (infix_of_pre (List.prefix_append S1 S2))
    (infix_of_suf ((List.suffix_append P (S1 ++ S2)).trans
      (List.suffix_append A (P ++ (S1 ++ S2))))))

theorem infix_of_tail2 {α : Type} {pat S2 : List α} (A P S1 : List α) (h : pat <:+: S2) :
    pat <:+: A ++ (P ++ (S1 ++ S2)) :=
  infix_trans h (infix_of_suf ((List.suffix_append S1 S2).trans
    ((List.suffix_append P (S1 ++ S2)).trans (List.suffix_append A (P ++ (S1 ++ S2))))))

end JiraExport

set_option maxRecDepth 8192

/-- C6 counterexample: the JQL strings interpolate the project key without
any escaping, so the claim's "for every project key" fails — with project
key "resolutiondate" the useUpdated query itself contains the text
"resolution". -/
theorem JiraExport.c6_counterexample :
    "resolution".data <:+: (jql_updated "resolutiondate").data := by decide

/-- C6 (amended): for every project key, the useUpdated=false query
contains "resolution IS NOT EMPTY" and lower/upper resolutiondate bounds
anchored at startOfMonth(-1) and startOfMonth(); the useUpdated=true query
(both web and CLI variants) contains the corresponding updated bounds; and
for every project key that does not itself contain the text "resolution",
the useUpdated=true queries contain no occurrence of "resolution". -/
theorem JiraExport.c6_query_builder (project : String) :
    ("resolution IS NOT EMPTY".data <:+: (jql_resolved project).data) ∧
    ("resolutiondate >= startOfMonth(-1)".data <:+: (jql_resolved project).data) ∧
    ("resolutiondate < startOfMonth()".data <:+: (jql_resolved project).data) ∧
    ("updated >= startOfMonth(-1)".data <:+: (jql_updated project).data) ∧
    ("updated < startOfMonth()".data <:+: (jql_updated project).data) ∧
    ("updated >= startOfMonth(-1)".data <:+: (jql_cli_updated project).data) ∧
    ("updated < startOfMonth()".data <:+: (jql_cli_updated project).data) ∧
    (¬ "resolution".data <:+: project.data →
      ¬ "resolution".data <:+: (jql_updated project).data) ∧
    (¬ "resolution".data <:+: project.data →
      ¬ "resolution".data <:+: (jql_cli_updated project).data) := by
  have e1 : (jql_resolved project).data =
      "project = ".data ++ (project.data ++
        (" AND resolution IS NOT EMPTY AND resolutiondate >= startOfMonth(-1)".data ++
          " AND resolutiondate < startOfMonth() ORDER BY resolutiondate ASC".data)) := by
    simp [jql_resolved, List.append_assoc]
  have e2 : (jql_updated project).data =
      "project = ".data ++ (project.data ++
        (" AND statusCategory != Done AND updated >= startOfMonth(-1)".data ++
          " AND updated < startOfMonth() ORDER BY updated ASC".data)) := by
    simp [jql_updated, List.append_assoc]
  have e3 : (jql_cli_updated project).data =
      "project = ".data ++ (project.data ++
        (" AND status NOT IN (Open) AND updated >= startOfMonth(-1)".data ++
          " AND updated < startOfMonth() ORDER BY updated ASC".data)) := by
    simp [jql_cli_updated, List.append_assoc]
  refine ⟨?_, ?_, ?_, ?_, ?_, ?_, ?_, ?_, ?_⟩
  · rw [e1]; exact infix_of_tail1 _ _ _ (by decide)
  · rw [e1]; exact infix_of_tail1 _ _ _ (by decide)
  · rw [e1]; exact infix_of_tail2 _ _ _ (by decide)
  · rw [e2]; exact infix_of_tail1 _ _ _ (by decide)
  · rw [e2]; exact infix_of_tail2 _ _ _ (by decide)
  · rw [e3]; exact infix_of_tail1 _ _ _ (by decide)
  · rw [e3]; exact infix_of_tail2 _ _ _ (by decide)
  · intro hp
    rw [e2]
    exact not_infix_append3 (by decide) (by decide) hp (by decide) (by decide)
  · intro hp
    rw [e3]
    exact not_infix_append3 (by decide) (by decide) hp (by decide) (by decide)

/-- Witness for C6: for the project key "TEST" the useUpdated query contains
no occurrence of "resolution". -/
theorem JiraExport.c6_query_builder_witness :
    ¬ "resolution".data <:+: (jql_updated "TEST").data :=
  (c6_query_builder "TEST").2.2.2.2.2.2.2.1 (by decide)
